import Mathlib

/-
Verification of the fixed-point / formatting core of main.c
(XMC MCU MATH SQRT example).

The embedding models C `float` values as exact rationals (ℚ), machine
integers as ℤ with explicit two's-complement narrowing where the source
narrows, and C float-to-integer casts as truncation toward zero.
-/

set_option maxRecDepth 100000

/-- C float-to-integer conversion: truncation toward zero
(floor for non-negative values, ceiling for negative ones). -/
def cTrunc (q : ℚ) : ℤ := if 0 ≤ q then ⌊q⌋ else ⌈q⌉

/-- Two's-complement narrowing of an integer to `int16_t`
(models the `(int16_t)` cast in `float_to_q15`). -/
def toInt16 (n : ℤ) : ℤ := (n + 32768) % 65536 - 32768

/-- Two's-complement narrowing of an integer to `int32_t`
(models the `(int32_t)` cast in `float_to_q31`). -/
def toInt32 (n : ℤ) : ℤ := (n + 2147483648) % 4294967296 - 2147483648

/-- Macro `INPUT_NUM` from main.c: `0.25F`. -/
def INPUT_NUM : ℚ := 0.25

/-- Macro `STRING_BUF_SIZE` from main.c: size of the string buffer. -/
def STRING_BUF_SIZE : ℕ := 32

/-- `q15_to_float` from main.c: `(float) a / 0x8000`. -/
def q15_to_float (a : ℤ) : ℚ := (a : ℚ) / 0x8000

/-- `q31_to_float` from main.c: `(float) a / 0x80000000`. -/
def q31_to_float (a : ℤ) : ℚ := (a : ℚ) / 0x80000000

/-- `float_to_q15` from main.c: `(int16_t)( (a * 0x8000) + 0.5F )`,
the narrowing cast modeled as two's-complement wraparound. -/
def float_to_q15 (a : ℚ) : ℤ := toInt16 (cTrunc (a * 0x8000 + 0.5))

/-- `float_to_q31` from main.c: `(int32_t)( (a * 0x80000000) + 0.5F )`,
the out-of-range cast modeled as two's-complement wraparound
(the spec's own "silently wrapped" semantics for domain violations). -/
def float_to_q31 (a : ℚ) : ℤ := toInt32 (cTrunc (a * 0x80000000 + 0.5))

/-- Decimal digits of a natural number, most significant first.
Fuel-structured recursion so that the kernel can evaluate it;
models the digit sequence printed by `printf` for an unsigned value. -/
def natCharsAux : ℕ → ℕ → List Char
  | 0, _ => []
  | fuel+1, n =>
    if n < 10 then [Nat.digitChar n]
    else natCharsAux fuel (n / 10) ++ [Nat.digitChar (n % 10)]

/-- Decimal digit characters of `n` (with enough fuel). -/
def natChars (n : ℕ) : List Char := natCharsAux (n + 1) n

/-- `printf` conversion `%d` applied to an integer. -/
def intChars (i : ℤ) : List Char :=
  if i < 0 then ['-'] ++ natChars (-i).toNat else natChars i.toNat

/-- `printf` conversion `%03d` applied to an integer: zero-padded to
(total) width 3, the sign counting toward the width. -/
def int03dChars (d : ℤ) : List Char :=
  if d < 0 then
    ['-'] ++ (List.replicate (2 - (natChars (-d).toNat).length) '0' ++ natChars (-d).toNat)
  else
    List.replicate (3 - (natChars d.toNat).length) '0' ++ natChars d.toNat

/-- The characters `float_to_string` from main.c would render before the
bounded `snprintf` write: strip the sign, truncate the magnitude to its
integral part, truncate the 1000-scaled remainder, and lay the pieces out
as `-%d.%03d` / `%d.%03d`. -/
def float_to_string_chars (number : ℚ) : List Char :=
  let is_negative : Bool := decide (number < 0)
  let number : ℚ := if is_negative then -number else number
  let integral_part : ℤ := cTrunc number
  let decimal_part : ℤ := cTrunc ((number - integral_part) * 1000)
  (if is_negative then ['-'] else []) ++
    intChars integral_part ++ ['.'] ++ int03dChars decimal_part

/-- `float_to_string` from main.c: the rendered text, truncated by
`snprintf` to at most `buf_size - 1` characters. -/
def float_to_string (buf_size : ℕ) (number : ℚ) : String :=
  if buf_size = 0 then "" else ⟨(float_to_string_chars number).take (buf_size - 1)⟩

/-- Modelled from the spec: the software square-root collaborator
(`sqrtf` from `math.h`, not part of this repository's sources) is the
standard real-valued square root. -/
noncomputable def sqrtf (x : ℝ) : ℝ := Real.sqrt x

/-- Modelled from the spec: the successive `printf` outputs of `main`,
parameterized by the opaque hardware CORDIC square-root collaborator
(`XMC_MATH_CORDIC_Q31_Sqrt`, not part of this repository's sources) and by
the value the software square-root collaborator returns. -/
def main_printfs (cordic_sqrt : ℤ → ℤ) (software_sqrt : ℚ) : List String :=
  let banner_rule : String := ⟨List.replicate 63 '='⟩
  let sqr_root_cordic_q31 : ℤ := cordic_sqrt (float_to_q31 INPUT_NUM)
  let sqr_root_cordic_float : ℚ := q31_to_float sqr_root_cordic_q31
  ["\x1b[2J\x1b[;H",
   banner_rule ++ "\r\n",
   "XMC MCU: MATH SQRT example\r\n",
   banner_rule ++ "\r\n\n",
   "Sqr_root_CORDIC_Q31 = " ++ toString sqr_root_cordic_q31 ++ " \r\n",
   "Sqr_root_CORDIC_float = " ++ float_to_string STRING_BUF_SIZE sqr_root_cordic_float ++ "\r\n",
   "Sqr_root_Software_float = " ++ float_to_string STRING_BUF_SIZE software_sqrt ++ "\r\n"]

/-! ### Basic lemmas about the truncation and digit helpers -/

lemma cTrunc_of_nonneg {q : ℚ} (h : 0 ≤ q) : cTrunc q = ⌊q⌋ := if_pos h

lemma cTrunc_eval (q : ℚ) (a : ℤ) (h0 : 0 ≤ a) (h1 : (a : ℚ) ≤ q) (h2 : q < a + 1) :
    cTrunc q = a := by
  have hq : 0 ≤ q := le_trans (by exact_mod_cast h0) h1
  rw [cTrunc_of_nonneg hq, Int.floor_eq_iff]
  exact ⟨h1, h2⟩

lemma cTrunc_nonneg {q : ℚ} (h : 0 ≤ q) : 0 ≤ cTrunc q := by
  rw [cTrunc_of_nonneg h]
  exact Int.floor_nonneg.mpr h

lemma natCharsAux_digits :
    ∀ fuel n : ℕ, n < fuel → ∀ c ∈ natCharsAux fuel n, c.isDigit = true := by
  intro fuel
  induction fuel with
  | zero => intro n h; exact absurd h (Nat.not_lt_zero n)
  | succ fuel ih =>
    intro n h c hc
    have hdig : ∀ m : ℕ, m < 10 → (Nat.digitChar m).isDigit = true := by decide
    by_cases h10 : n < 10
    · rw [natCharsAux, if_pos h10, List.mem_singleton] at hc
      exact hc ▸ hdig n h10
    · rw [natCharsAux, if_neg h10, List.mem_append] at hc
      cases hc with
      | inl hmem => exact ih (n / 10) (by omega) c hmem
      | inr hmem =>
        rw [List.mem_singleton] at hmem
        exact hmem ▸ hdig (n % 10) (Nat.mod_lt n (by omega))

lemma natChars_digits (n : ℕ) : ∀ c ∈ natChars n, c.isDigit = true :=
  natCharsAux_digits (n + 1) n (Nat.lt_succ_self n)

lemma natChars_length_le_three : ∀ n : ℕ, n < 1000 → (natChars n).length ≤ 3 := by decide

lemma decimal_part_bounds (m : ℚ) (hm : 0 ≤ m) :
    0 ≤ cTrunc ((m - cTrunc m) * 1000) ∧ cTrunc ((m - cTrunc m) * 1000) ≤ 999 := by
  rw [cTrunc_of_nonneg hm]
  have h1 : (0 : ℚ) ≤ m - ⌊m⌋ := by
    have := Int.floor_le m
    linarith
  have h2 : m - ⌊m⌋ < 1 := by
    have := Int.lt_floor_add_one m
    linarith
  have h0 : (0 : ℚ) ≤ (m - ⌊m⌋) * 1000 := mul_nonneg h1 (by norm_num)
  rw [cTrunc_of_nonneg h0]
  constructor
  · exact Int.floor_nonneg.mpr h0
  · have hlt : (m - ⌊m⌋) * 1000 < 1000 := by nlinarith
    have := Int.floor_lt.mpr (show (m - (⌊m⌋ : ℚ)) * 1000 < ((1000 : ℤ) : ℚ) by push_cast; linarith)
    omega

lemma int03dChars_of_nonneg {d : ℤ} (h : 0 ≤ d) :
    int03dChars d = List.replicate (3 - (natChars d.toNat).length) '0' ++ natChars d.toNat := by
  rw [int03dChars, if_neg (not_lt.mpr h)]

lemma int03dChars_length {d : ℤ} (h0 : 0 ≤ d) (h9 : d ≤ 999) :
    (int03dChars d).length = 3 := by
  rw [int03dChars_of_nonneg h0, List.length_append, List.length_replicate]
  have : d.toNat < 1000 := by omega
  have := natChars_length_le_three d.toNat this
  omega

lemma int03dChars_digits {d : ℤ} (h0 : 0 ≤ d) :
    ∀ c ∈ int03dChars d, c.isDigit = true := by
  intro c hc
  rw [int03dChars_of_nonneg h0, List.mem_append] at hc
  rcases hc with hc | hc
  · rw [List.eq_of_mem_replicate hc]
    decide
  · exact natChars_digits d.toNat c hc

lemma float_to_string_chars_of_nonneg (x : ℚ) (hx : 0 ≤ x) :
    float_to_string_chars x =
      natChars (cTrunc x).toNat ++ ['.'] ++ int03dChars (cTrunc ((x - cTrunc x) * 1000)) := by
  have hneg : decide (x < 0) = false := decide_eq_false (not_lt.mpr hx)
  have hint : ¬ cTrunc x < 0 := not_lt.mpr (cTrunc_nonneg hx)
  rw [float_to_string_chars]
  simp only [hneg, if_false, Bool.false_eq_true, intChars, if_neg hint, List.nil_append]

lemma float_to_string_chars_of_neg (x : ℚ) (hx : x < 0) :
    float_to_string_chars x = '-' :: float_to_string_chars (-x) := by
  have hpos : decide (x < 0) = true := decide_eq_true hx
  have hneg : decide (-x < 0) = false := decide_eq_false (not_lt.mpr (by linarith))
  rw [float_to_string_chars, float_to_string_chars]
  simp only [hpos, hneg, if_true, if_false, Bool.false_eq_true, List.singleton_append,
    List.nil_append, List.cons_append]

lemma float_to_string_data (bs : ℕ) (x : ℚ)
    (h : (float_to_string_chars x).length < bs) :
    (float_to_string bs x).data = float_to_string_chars x := by
  have hbs : bs ≠ 0 := by omega
  rw [float_to_string, if_neg hbs]
  show (float_to_string_chars x).take (bs - 1) = _
  exact List.take_of_length_le (by omega)

lemma float_to_string_chars_split (y : ℚ) (hy : 0 ≤ y) :
    ∃ pre post : List Char,
      float_to_string_chars y = pre ++ '.' :: post ∧
      (∀ c ∈ pre, c.isDigit = true) ∧ post.length = 3 ∧ ∀ c ∈ post, c.isDigit = true := by
  obtain ⟨hd0, hd9⟩ := decimal_part_bounds y hy
  refine ⟨natChars (cTrunc y).toNat, int03dChars (cTrunc ((y - cTrunc y) * 1000)), ?_, ?_, ?_, ?_⟩
  · rw [float_to_string_chars_of_nonneg y hy]
    simp [List.append_assoc]
  · exact natChars_digits _
  · exact int03dChars_length hd0 hd9
  · exact int03dChars_digits hd0

lemma chars_zero : float_to_string_chars 0 = ['0', '.', '0', '0', '0'] := by
  have h1 : cTrunc (0 : ℚ) = 0 := cTrunc_eval _ 0 le_rfl (by norm_num) (by norm_num)
  rw [float_to_string_chars_of_nonneg 0 le_rfl, h1]
  simp only [Int.cast_zero, sub_zero, zero_mul]
  rw [h1]
  decide

lemma chars_half : float_to_string_chars (1/2 : ℚ) = ['0', '.', '5', '0', '0'] := by
  have h1 : cTrunc (1/2 : ℚ) = 0 := cTrunc_eval _ 0 le_rfl (by norm_num) (by norm_num)
  have h2 : cTrunc (((1/2 : ℚ) - ((0 : ℤ) : ℚ)) * 1000) = 500 := by
    rw [show ((1/2 : ℚ) - ((0 : ℤ) : ℚ)) * 1000 = 500 by norm_num]
    exact cTrunc_eval _ 500 (by norm_num) (by norm_num) (by norm_num)
  rw [float_to_string_chars_of_nonneg _ (by norm_num), h1, h2]
  decide

lemma chars_neg_milli :
    float_to_string_chars (-(1/1000) : ℚ) = ['-', '0', '.', '0', '0', '1'] := by
  rw [float_to_string_chars_of_neg _ (by norm_num), neg_neg]
  have h1 : cTrunc (1/1000 : ℚ) = 0 := cTrunc_eval _ 0 le_rfl (by norm_num) (by norm_num)
  have h2 : cTrunc (((1/1000 : ℚ) - ((0 : ℤ) : ℚ)) * 1000) = 1 := by
    rw [show ((1/1000 : ℚ) - ((0 : ℤ) : ℚ)) * 1000 = 1 by norm_num]
    exact cTrunc_eval _ 1 (by norm_num) (by norm_num) (by norm_num)
  rw [float_to_string_chars_of_nonneg _ (by norm_num), h1, h2]
  decide

lemma chars_half_len : (float_to_string_chars (1/2 : ℚ)).length < 32 := by
  rw [chars_half]
  decide

lemma chars_neg_milli_len : (float_to_string_chars (-(1/1000) : ℚ)).length < 32 := by
  rw [chars_neg_milli]
  decide

/-- C1: for every real input whose rendering fits the supplied capacity, the
string produced by the decimal formatter `float_to_string` contains exactly
one decimal point character and exactly 3 digits after it. -/
theorem float_to_string_one_point_three_digits (bs : ℕ) (x : ℚ)
    (h : (float_to_string_chars x).length < bs) :
    ∃ pre post : List Char,
      (float_to_string bs x).data = pre ++ '.' :: post ∧
      '.' ∉ pre ∧ '.' ∉ post ∧ post.length = 3 ∧ ∀ c ∈ post, c.isDigit = true := by
  rw [float_to_string_data bs x h]
  by_cases hx : x < 0
  · rw [float_to_string_chars_of_neg x hx]
    obtain ⟨pre, post, hEq, hpre, hlen, hpost⟩ :=
      float_to_string_chars_split (-x) (neg_nonneg.mpr hx.le)
    refine ⟨'-' :: pre, post, ?_, ?_, ?_, hlen, hpost⟩
    · rw [hEq]
      rfl
    · intro hmem
      rcases List.mem_cons.mp hmem with heq | hmem
      · exact absurd heq (by decide)
      · exact absurd (hpre _ hmem) (by decide)
    · intro hmem
      exact absurd (hpost _ hmem) (by decide)
  · obtain ⟨pre, post, hEq, hpre, hlen, hpost⟩ :=
      float_to_string_chars_split x (not_lt.mp hx)
    refine ⟨pre, post, hEq, ?_, ?_, hlen, hpost⟩
    · intro hmem
      exact absurd (hpre _ hmem) (by decide)
    · intro hmem
      exact absurd (hpost _ hmem) (by decide)

/-- C1 witness: the theorem instantiated at capacity 32 and input 1/2. -/
theorem float_to_string_one_point_three_digits_witness :
    (float_to_string_chars (1/2 : ℚ)).length < 32 ∧
      ∃ pre post : List Char,
        (float_to_string 32 (1/2 : ℚ)).data = pre ++ '.' :: post ∧
        '.' ∉ pre ∧ '.' ∉ post ∧ post.length = 3 ∧ ∀ c ∈ post, c.isDigit = true :=
  ⟨chars_half_len, float_to_string_one_point_three_digits 32 (1/2) chars_half_len⟩

/-- C4: a negative input is formatted as a single leading minus sign followed
by the formatting of the magnitude, and no minus sign occurs anywhere in the
magnitude's rendering (in particular not on the fractional digits). -/
theorem float_to_string_negative_sign_prefix (bs : ℕ) (x : ℚ) (hx : x < 0)
    (h : (float_to_string_chars x).length < bs) :
    (float_to_string bs x).data = '-' :: float_to_string_chars (-x) ∧
      '-' ∉ float_to_string_chars (-x) := by
  constructor
  · rw [float_to_string_data bs x h, float_to_string_chars_of_neg x hx]
  · obtain ⟨pre, post, hEq, hpre, hlen, hpost⟩ :=
      float_to_string_chars_split (-x) (neg_nonneg.mpr hx.le)
    rw [hEq]
    intro hmem
    rcases List.mem_append.mp hmem with hmem | hmem
    · exact absurd (hpre _ hmem) (by decide)
    · rcases List.mem_cons.mp hmem with heq | hmem
      · exact absurd heq (by decide)
      · exact absurd (hpost _ hmem) (by decide)

/-- C4 witness: the theorem instantiated at capacity 32 and input -0.001,
which formats as "-0.001" and never as "0.-001". -/
theorem float_to_string_negative_sign_prefix_witness :
    ((-(1/1000) : ℚ) < 0) ∧ (float_to_string_chars (-(1/1000) : ℚ)).length < 32 ∧
      ((float_to_string 32 (-(1/1000) : ℚ)).data =
          '-' :: float_to_string_chars (-(-(1/1000) : ℚ)) ∧
        '-' ∉ float_to_string_chars (-(-(1/1000) : ℚ))) :=
  ⟨by norm_num, chars_neg_milli_len,
    float_to_string_negative_sign_prefix 32 (-(1/1000)) (by norm_num) chars_neg_milli_len⟩

/-- C10: formatting negative zero produces the unsigned string "0.000"; the
sign test `number < 0` is a strict comparison, false at (negative) zero, so
no "-" marker is emitted. -/
theorem float_to_string_negative_zero :
    float_to_string STRING_BUF_SIZE (-(0 : ℚ)) = "0.000" ∧ ¬ ((-(0 : ℚ)) < 0) := by
  constructor
  · rw [neg_zero, float_to_string, chars_zero]
    decide
  · rw [neg_zero]
    exact lt_irrefl 0

/-- C2 (amended): for every x in [0, 1 - 2^-32), the Q31 round trip
`q31_to_float (float_to_q31 x)` differs from x by at most 2^-31. -/
theorem q31_roundtrip_within_resolution (x : ℚ) (h0 : 0 ≤ x)
    (h1 : x < 1 - 1/4294967296) :
    |q31_to_float (float_to_q31 x) - x| ≤ 1/2147483648 := by
  have h05 : (0.5 : ℚ) = 1/2 := by norm_num
  have hb : (0 : ℚ) ≤ x * 0x80000000 + 0.5 := by
    have hprod := mul_nonneg h0 (show (0 : ℚ) ≤ 0x80000000 by norm_num)
    linarith
  simp only [float_to_q31]
  rw [cTrunc_of_nonneg hb]
  have hfl : (0 : ℤ) ≤ ⌊x * 0x80000000 + 0.5⌋ := Int.floor_nonneg.mpr hb
  have hfu : ⌊x * 0x80000000 + 0.5⌋ < 2147483648 := by
    rw [Int.floor_lt]
    have hm := mul_lt_mul_of_pos_right h1 (show (0 : ℚ) < 2147483648 by norm_num)
    have heq : (1 - 1/4294967296 : ℚ) * 2147483648 = 2147483648 - 1/2 := by norm_num
    rw [heq] at hm
    push_cast
    linarith
  have hwrap : toInt32 ⌊x * 0x80000000 + 0.5⌋ = ⌊x * 0x80000000 + 0.5⌋ := by
    rw [toInt32]
    omega
  rw [hwrap]
  simp only [q31_to_float]
  have e1 : ((⌊x * 0x80000000 + 0.5⌋ : ℤ) : ℚ) ≤ x * 0x80000000 + 0.5 :=
    Int.floor_le _
  have e2 : x * 0x80000000 + 0.5 < ⌊x * 0x80000000 + 0.5⌋ + 1 :=
    Int.lt_floor_add_one _
  rw [abs_le]
  constructor
  · linarith
  · linarith

/-- C2 witness: the amended theorem instantiated at x = 1/4. -/
theorem q31_roundtrip_within_resolution_witness :
    (0 ≤ (1/4 : ℚ)) ∧ ((1/4 : ℚ) < 1 - 1/4294967296) ∧
      |q31_to_float (float_to_q31 (1/4)) - 1/4| ≤ 1/2147483648 :=
  ⟨by norm_num, by norm_num,
    q31_roundtrip_within_resolution (1/4) (by norm_num) (by norm_num)⟩

/-- C2 counterexample: at x = 1 - 2^-32 (inside the claimed domain [0, 1)),
the biased scaling reaches 2^31, the int32 conversion wraps, and the round
trip returns -1, so the 2^-31 error bound fails. -/
theorem q31_roundtrip_fails_near_one :
    0 ≤ (4294967295/4294967296 : ℚ) ∧ (4294967295/4294967296 : ℚ) < 1 ∧
      ¬ |q31_to_float (float_to_q31 (4294967295/4294967296)) -
          4294967295/4294967296| ≤ 1/2147483648 := by
  refine ⟨by norm_num, by norm_num, ?_⟩
  have htr : cTrunc ((4294967295/4294967296 : ℚ) * 0x80000000 + 0.5) = 2147483648 := by
    rw [show ((4294967295/4294967296 : ℚ) * 0x80000000 + 0.5) = 2147483648 by norm_num]
    exact cTrunc_eval _ 2147483648 (by norm_num) (by norm_num) (by norm_num)
  simp only [float_to_q31]
  rw [htr, show toInt32 2147483648 = -2147483648 by decide]
  simp only [q31_to_float]
  intro habs
  rw [abs_le] at habs
  have hA := habs.1
  push_cast at hA
  norm_num at hA

/-- C3: a non-negative value with at most 3 meaningful fractional digits,
n + d/1000 with d ≤ 999, formats (with sufficient capacity) exactly as the
decimal digits of n, a point, and d zero-padded to 3 digits. -/
theorem float_to_string_exact_thousandths (bs n d : ℕ) (hd : d ≤ 999)
    (hcap : (natChars n).length + 5 ≤ bs) :
    float_to_string bs ((n : ℚ) + (d : ℚ) / 1000) =
      ⟨natChars n ++ '.' :: (List.replicate (3 - (natChars d).length) '0' ++ natChars d)⟩ := by
  have hd1000 : (d : ℚ) < 1000 := by
    have hle : (d : ℚ) ≤ 999 := by exact_mod_cast hd
    linarith
  have hfrac0 : 0 ≤ (d : ℚ) / 1000 := by positivity
  have hfrac1 : (d : ℚ) / 1000 < 1 := (div_lt_one (by norm_num)).mpr hd1000
  have hx0 : 0 ≤ (n : ℚ) + (d : ℚ) / 1000 := by positivity
  have hi : cTrunc ((n : ℚ) + (d : ℚ) / 1000) = (n : ℤ) := by
    refine cTrunc_eval _ (n : ℤ) (Int.natCast_nonneg n) ?_ ?_
    · push_cast
      linarith
    · push_cast
      linarith
  have hsub : (((n : ℚ) + (d : ℚ) / 1000) - ((n : ℤ) : ℚ)) * 1000 = (d : ℚ) := by
    push_cast
    ring
  have hdec : cTrunc ((((n : ℚ) + (d : ℚ) / 1000) - ((n : ℤ) : ℚ)) * 1000) = (d : ℤ) := by
    rw [hsub]
    refine cTrunc_eval _ (d : ℤ) (Int.natCast_nonneg d) (by push_cast; linarith) ?_
    push_cast
    linarith
  have hchars : float_to_string_chars ((n : ℚ) + (d : ℚ) / 1000) =
      natChars n ++ '.' :: (List.replicate (3 - (natChars d).length) '0' ++ natChars d) := by
    rw [float_to_string_chars_of_nonneg _ hx0, hi, hdec,
      int03dChars_of_nonneg (Int.natCast_nonneg d), Int.toNat_natCast, Int.toNat_natCast]
    simp [List.append_assoc]
  have hL : (natChars d).length ≤ 3 := natChars_length_le_three d (by omega)
  have hlen : (float_to_string_chars ((n : ℚ) + (d : ℚ) / 1000)).length < bs := by
    rw [hchars]
    simp only [List.length_append, List.length_cons, List.length_replicate]
    omega
  rw [float_to_string, if_neg (by omega : ¬ bs = 0)]
  exact congrArg String.mk (by rw [List.take_of_length_le (by omega), hchars])

/-- C3 witness: the theorem instantiated at n = 5, d = 42, capacity 32,
formatting 5.042. -/
theorem float_to_string_exact_thousandths_witness :
    (42 ≤ 999) ∧ ((natChars 5).length + 5 ≤ 32) ∧
      float_to_string 32 (((5 : ℕ) : ℚ) + ((42 : ℕ) : ℚ) / 1000) =
        ⟨natChars 5 ++ '.' :: (List.replicate (3 - (natChars 42).length) '0' ++ natChars 42)⟩ :=
  ⟨by decide, by decide, float_to_string_exact_thousandths 32 5 42 (by decide) (by decide)⟩

/-- C5: whenever the biased truncation lies in int16 range, `float_to_q15`
returns exactly the truncation toward zero of x * 32768 + 0.5, i.e. the 0.5
bias is added before truncating. -/
theorem float_to_q15_is_biased_truncation (x : ℚ)
    (h1 : -32768 ≤ cTrunc (x * 32768 + 0.5)) (h2 : cTrunc (x * 32768 + 0.5) ≤ 32767) :
    float_to_q15 x = cTrunc (x * 32768 + 0.5) := by
  simp only [float_to_q15, toInt16]
  omega

lemma cTrunc_quarter_q15 : cTrunc ((1/4 : ℚ) * 32768 + 0.5) = 8192 :=
  cTrunc_eval _ 8192 (by norm_num) (by norm_num) (by norm_num)

/-- C5 witness: the theorem instantiated at x = 1/4, where the biased
truncation is 8192. -/
theorem float_to_q15_is_biased_truncation_witness :
    (-32768 ≤ cTrunc ((1/4 : ℚ) * 32768 + 0.5)) ∧
      (cTrunc ((1/4 : ℚ) * 32768 + 0.5) ≤ 32767) ∧
      float_to_q15 (1/4) = cTrunc ((1/4 : ℚ) * 32768 + 0.5) :=
  ⟨by rw [cTrunc_quarter_q15]; decide, by rw [cTrunc_quarter_q15]; decide,
    float_to_q15_is_biased_truncation (1/4)
      (by rw [cTrunc_quarter_q15]; decide) (by rw [cTrunc_quarter_q15]; decide)⟩

/-- C6: for every 32-bit signed integer a, `q31_to_float` returns
a / 2147483648. -/
theorem q31_to_float_is_division_by_2pow31 (a : ℤ)
    (_h1 : -2147483648 ≤ a) (_h2 : a ≤ 2147483647) :
    q31_to_float a = (a : ℚ) / 2147483648 := rfl

/-- C6 witness: the theorem instantiated at a = 2^30. -/
theorem q31_to_float_is_division_by_2pow31_witness :
    (-2147483648 ≤ (1073741824 : ℤ)) ∧ ((1073741824 : ℤ) ≤ 2147483647) ∧
      q31_to_float 1073741824 = ((1073741824 : ℤ) : ℚ) / 2147483648 :=
  ⟨by decide, by decide,
    q31_to_float_is_division_by_2pow31 1073741824 (by decide) (by decide)⟩

/-- C9: for every input, even outside [-1, 1), `float_to_q15` lands in
[-32768, 32767], because the product is narrowed through the int16 cast
before widening back to int32. -/
theorem float_to_q15_always_in_int16_range (x : ℚ) :
    -32768 ≤ float_to_q15 x ∧ float_to_q15 x ≤ 32767 := by
  simp only [float_to_q15, toInt16]
  omega

/-- C7: on the fixed input 0.25, the software path computes a square root of
exactly 0.5, and formatting that result produces the string "0.500". -/
theorem software_sqrt_of_quarter_formats_correctly :
    sqrtf ((INPUT_NUM : ℚ) : ℝ) = ((1/2 : ℚ) : ℝ) ∧
      float_to_string STRING_BUF_SIZE (1/2) = "0.500" := by
  constructor
  · simp only [sqrtf, INPUT_NUM]
    rw [show (((0.25 : ℚ) : ℝ)) = (1/2 : ℝ)^2 by norm_num,
      Real.sqrt_sq (by norm_num : (0:ℝ) ≤ 1/2)]
    norm_num
  · rw [float_to_string, chars_half]
    decide

/-- C8: per run, the driver emits the raw hardware fixed-point integer
result, the formatted hardware-derived decimal string, and the formatted
software-derived decimal string, in this order, each as its own
newline-terminated printf output — for any hardware collaborator and any
software square-root value. -/
theorem main_reports_raw_then_hw_then_sw (cordic_sqrt : ℤ → ℤ) (software_sqrt : ℚ) :
    ∃ i j k : ℕ, i < j ∧ j < k ∧
      (main_printfs cordic_sqrt software_sqrt).get? i =
        some ("Sqr_root_CORDIC_Q31 = " ++
          toString (cordic_sqrt (float_to_q31 INPUT_NUM)) ++ " \r\n") ∧
      (main_printfs cordic_sqrt software_sqrt).get? j =
        some ("Sqr_root_CORDIC_float = " ++
          float_to_string STRING_BUF_SIZE
            (q31_to_float (cordic_sqrt (float_to_q31 INPUT_NUM))) ++ "\r\n") ∧
      (main_printfs cordic_sqrt software_sqrt).get? k =
        some ("Sqr_root_Software_float = " ++
          float_to_string STRING_BUF_SIZE software_sqrt ++ "\r\n") :=
  ⟨4, 5, 6, by omega, by omega, rfl, rfl, rfl⟩
